import Mathlib

/-!
Verification of the nextlg looking-glass repository: shallow embedding of the
live-MTR hop aggregator (source file with interface MtrData, functions
createDefaultMtrRow, calculateStats, updateMtrRow, updateLossPercent,
parseMtrLine), of the speed-test chunk endpoints (pattern variant and cached
variant of createChunk / GET / POST), and of the client retry loop of
downloadChunk / uploadChunk in SpeedTest.tsx.

Numeric conventions: JavaScript numbers that only ever hold exact decimal
values in the modelled paths are embedded as rationals; the Infinity and
negative Infinity sentinels of the fields Last, Best and Worst are embedded
as the value none of an Option type (each field has a single sentinel in the
source, so no information is lost).  Sequence numbers and hop indices come
from parseInt and are embedded as integers.  The field StDev of the source
interface is computed with Math.sqrt, which has no exact rational embedding;
no claim mentions it and it is omitted from the record, as are the TotalTime
and VarianceSum fields that no modelled function touches.
-/

/-- Association list with integer keys modelling a JavaScript Map: lookup of
the first (unique) binding of a key. -/
def mapGet {α : Type} : List (ℤ × α) → ℤ → Option α
  | [], _ => none
  | (k, v) :: rest, key => if k = key then some v else mapGet rest key

/-- Modelling Map.set: replace the binding in place if the key is present
(JavaScript Map keeps insertion order on update), otherwise append. -/
def mapSet {α : Type} : List (ℤ × α) → ℤ → α → List (ℤ × α)
  | [], key, val => [(key, val)]
  | (k, v) :: rest, key, val =>
      if k = key then (key, val) :: rest else (k, v) :: mapSet rest key val

/-- Embedding of the exported interface MtrData of the hop aggregator.
Infinity sentinels of Last, Best, Worst are the value none. -/
structure MtrData where
  Hop : ℤ
  ASN : String
  PrefixStr : String
  Host : String
  Sent : ℕ
  SentPacket : ℤ
  SentPackets : List ℤ
  Received : ℕ
  ReceivedPacket : ℤ
  ReceivedPackets : List ℤ
  Pings : List ℚ
  Last : Option ℚ
  Best : Option ℚ
  Worst : Option ℚ
  Avg : ℚ
  LossPercent : ℚ
  isHidden : Bool
  deriving DecidableEq

/-- Embedding of MAX_PACKETS = 100. -/
def MAX_PACKETS : ℕ := 100

/-- Embedding of LOCALSTORAGE_CACHE_DURATION = 12 * 60 * 60 * 1000. -/
def LOCALSTORAGE_CACHE_DURATION : ℤ := 12 * 60 * 60 * 1000

/-- Embedding of createDefaultMtrRow. -/
def createDefaultMtrRow (hop : ℤ) : MtrData :=
  { Hop := hop
    ASN := "N/A"
    PrefixStr := "N/A"
    Host := "N/A"
    Sent := 0
    SentPacket := 0
    SentPackets := []
    Received := 0
    ReceivedPacket := 0
    ReceivedPackets := []
    Pings := []
    Last := none
    Best := none
    Worst := none
    Avg := 0
    LossPercent := 0
    isHidden := false }

/-- Result record of calculateStats (stdev omitted, see the file comment). -/
structure Stats where
  avg : ℚ
  min : Option ℚ
  max : Option ℚ
  deriving DecidableEq

/-- Embedding of calculateStats.  The source filters with p > 0 and
p !== Infinity; pings are produced by parseFloat values strictly greater
than 0, embedded as rationals, so the Infinity disequality is vacuous. -/
def calculateStats (pings : List ℚ) : Stats :=
  let validPings := pings.filter (fun p => 0 < p)
  match validPings with
  | [] => { avg := 0, min := none, max := none }
  | v :: vs =>
      let avg := (v :: vs).sum / ((v :: vs).length : ℚ)
      { avg := avg / 1000
        min := some ((vs.foldl min v) / 1000)
        max := some ((vs.foldl max v) / 1000) }

/-- The window update of updateMtrRow: push the new ping time, then drop the
oldest entry when the length exceeds MAX_PACKETS. -/
def pushPing (pings : List ℚ) (t : ℚ) : List ℚ :=
  let p := pings ++ [t]
  if MAX_PACKETS < p.length then p.tail else p

/-- Embedding of updateMtrRow. -/
def updateMtrRow (row : MtrData) (lastTime : ℚ) : MtrData :=
  if 0 < lastTime then
    let pings := pushPing row.Pings lastTime
    let stats := calculateStats pings
    { row with
        Pings := pings
        Last := some (lastTime / 1000)
        Avg := stats.avg
        Best := stats.min
        Worst := stats.max }
  else row

/-- Embedding of updateLossPercent: the lost packets are the sent sequence
numbers that are absent from the received set. -/
def updateLossPercent (row : MtrData) : MtrData :=
  if row.SentPackets.length = 0 then { row with LossPercent := 0 }
  else
    let lostPackets := row.SentPackets.filter (fun seq => seq ∉ row.ReceivedPackets)
    { row with
        LossPercent := (lostPackets.length : ℚ) / (row.SentPackets.length : ℚ) * 100 }

/-- Hop map owned by one live session. -/
abbrev MtrMap := List (ℤ × MtrData)

/-- Literal match: consume the characters of pat from the front, returning
the remaining input, none when pat is not a prefix. -/
def litP (pat : List Char) (l : List Char) : Option (List Char) :=
  if l.take pat.length = pat then some (l.drop pat.length) else none

/-- Consume one or two decimal digits followed by a literal dot, the regex
fragment of one dotted octet group.  The 1-versus-2 greediness of the regex
is deterministic here because a digit can never match the dot. -/
def octDot (l : List Char) : Option (List Char) :=
  let ds := l.takeWhile (·.isDigit)
  if ds.length = 1 ∨ ds.length = 2 then
    match l.drop ds.length with
    | '.' :: r => some r
    | _ => none
  else none

/-- Consume exactly two decimal digits whose value lies in the closed
interval from lo to hi, the regex fragments such as 6[4-9] or 1[6-9]|2[0-9]. -/
def twoDigits (lo hi : ℕ) (l : List Char) : Option (List Char) :=
  match l with
  | a :: b :: r =>
      if a.isDigit ∧ b.isDigit ∧
          lo ≤ 10 * (a.toNat - 48) + (b.toNat - 48) ∧
          10 * (a.toNat - 48) + (b.toNat - 48) ≤ hi
      then some r else none
  | _ => none

/-- Whether an alternative consumed the entire input, the trailing anchor of
the regex. -/
def atEnd (o : Option (List Char)) : Bool := o = some []

/-- Structural embedding of reservedIPv4Regex.test.  The source regex is
anchored with a leading caret and a trailing dollar and is an alternation in
which every alternative except the final 255.255.255.255 ends with a literal
dot, so the test accepts only dot-terminated prefix strings such as 10.0.0.
and never a complete dotted-quad address such as 10.0.0.1. -/
def reservedIPv4Regex_test (s : String) : Bool :=
  let l := s.data
  atEnd (litP "0.0.0.".data l) ||
  atEnd (litP "10.".data l >>= octDot >>= octDot) ||
  atEnd (litP "100.".data l >>= twoDigits 64 99 >>= litP ".".data >>= octDot) ||
  atEnd (litP "127.".data l >>= octDot >>= octDot) ||
  atEnd (litP "169.254.".data l >>= octDot) ||
  atEnd (litP "172.".data l >>= twoDigits 16 31 >>= litP ".".data >>= octDot) ||
  atEnd (litP "192.".data l >>= fun r =>
    (litP "0.0.".data r).orElse (fun _ =>
      (litP "0.2.".data r).orElse (fun _ => litP "168.".data r))) ||
  atEnd (litP "198.".data l >>= fun r =>
    (litP "18.".data r).orElse (fun _ =>
      (litP "19.".data r).orElse (fun _ => litP "51.100.".data r))) ||
  atEnd (litP "203.0.113.".data l) ||
  atEnd (litP "2".data l >>= twoDigits 24 39 >>= litP ".".data >>= octDot >>= octDot) ||
  atEnd (litP "240.".data l >>= octDot >>= octDot >>= octDot) ||
  atEnd (litP "255.255.255.255".data l)

/-- Numeric value of a list of decimal digits. -/
def natFromDigits (ds : List Char) : ℕ :=
  ds.foldl (fun n c => 10 * n + (c.toNat - 48)) 0

/-- Embedding of parseInt(s, 10): skip leading whitespace, optional sign,
then the longest prefix of decimal digits; none models NaN (no digit). -/
def parseIntJS (s : String) : Option ℤ :=
  let l := s.data.dropWhile (·.isWhitespace)
  let signAndRest : ℤ × List Char :=
    match l with
    | '-' :: rest => (-1, rest)
    | '+' :: rest => (1, rest)
    | _ => (1, l)
  let ds := signAndRest.2.takeWhile (·.isDigit)
  if ds = [] then none else some (signAndRest.1 * (natFromDigits ds : ℤ))

/-- Embedding of parseFloat(s) on the decimal forms the probe tool emits:
skip leading whitespace, optional sign, integer digits, optional dot and
fraction digits; trailing characters are ignored and none models NaN.
Exponent notation and the literal Infinity are outside the modelled input
alphabet of the probe stream. -/
def parseFloatJS (s : String) : Option ℚ :=
  let l := s.data.dropWhile (·.isWhitespace)
  let signAndRest : ℚ × List Char :=
    match l with
    | '-' :: rest => (-1, rest)
    | '+' :: rest => (1, rest)
    | _ => (1, l)
  let ip := signAndRest.2.takeWhile (·.isDigit)
  let fp :=
    match signAndRest.2.drop ip.length with
    | '.' :: r => r.takeWhile (·.isDigit)
    | _ => []
  if ip = [] ∧ fp = [] then none
  else some (signAndRest.1 *
    ((natFromDigits ip : ℚ) + (natFromDigits fp : ℚ) / (10 : ℚ) ^ fp.length))

/-- Split a character list at every character satisfying p, keeping empty
pieces, the per-character reading of String.prototype.split; the source
immediately filters out empty tokens, under which splitting per character
and splitting on runs of whitespace agree. -/
def splitOnChar (p : Char → Bool) : List Char → List (List Char)
  | [] => [[]]
  | c :: cs =>
      if p c then [] :: splitOnChar p cs
      else
        match splitOnChar p cs with
        | [] => [c] :: []
        | t :: ts => (c :: t) :: ts

/-- Tokenization of one probe line: split on whitespace and drop the empty
tokens, as in singleLine.split on whitespace runs with a Boolean filter. -/
def tokenize (line : List Char) : List String :=
  ((splitOnChar (·.isWhitespace) line).filter (· ≠ [])).map String.mk

/-- One parsed localStorage ASN cache entry: the asn and prefix strings and
the stored timestamp. -/
structure CacheEntry where
  asn : String
  pfx : String
  timestamp : ℤ
  deriving DecidableEq

/-- The localStorage collaborator, abstracted as a lookup from cache key to
a parsed entry; the value none covers both an absent key and an entry whose
JSON fails to parse, since both paths fall through to the asynchronous
fetchASN call and mutate nothing synchronously. -/
def Store : Type := String → Option CacheEntry

/-- The empty localStorage of a fresh browser session. -/
def emptyStore : Store := fun _ => none

/-- The hidden-hop test of the h case: the newly discovered host compared
with the current host of the hop-minus-one record, false when that record
does not exist (undefined compares unequal to any string). -/
def isHiddenAt (m : MtrMap) (hop : ℤ) (host : String) : Bool :=
  match mapGet m (hop - 1) with
  | some prevRow => host == prevRow.Host
  | none => false

/-- The guard of the enrichment block in the h case: not hidden, host is not
the default sentinel, and the reserved-address regex does not match. -/
def shouldEnrich (m : MtrMap) (hop : ℤ) (host : String) : Bool :=
  !(isHiddenAt m hop host) && host != "N/A" && !(reservedIPv4Regex_test host)

/-- Embedding of the reversed-host computation of the h case: split the host
on dots, keep the first three pieces, reverse, join with dots. -/
def reversedHostOf (host : String) : String :=
  String.intercalate "." ((((splitOnChar (· == '.') host.data).map String.mk).take 3).reverse)

/-- Embedding of the case h arm of parseMtrLine for a present host token:
set Host, compute isHidden against the current map, and when the enrichment
guard holds consult the localStorage cache; a fresh cached entry overwrites
ASN and the prefix synchronously, every other path defers to the
asynchronous fetchASN whose later write is outside this synchronous step. -/
def caseH (store : Store) (now : ℤ) (m : MtrMap) (hop : ℤ) (row : MtrData)
    (host : String) : MtrData :=
  let hidden := isHiddenAt m hop host
  let row1 := { row with Host := host, isHidden := hidden }
  if shouldEnrich m hop host then
    match store ("asn_" ++ reversedHostOf host) with
    | some entry =>
        if now - entry.timestamp < LOCALSTORAGE_CACHE_DURATION then
          { row1 with ASN := entry.asn, PrefixStr := entry.pfx }
        else row1
    | none => row1
  else row1

/-- Embedding of the case p arm of parseMtrLine for parsed arguments: accept
only a positive time, skip the per-row update when the sequence number was
already received, and recompute the loss percent on every valid packet. -/
def caseP (row : MtrData) (lastTime : ℚ) (recPacket : ℤ) : MtrData :=
  if 0 < lastTime then
    let row1 :=
      if recPacket ∈ row.ReceivedPackets then row
      else
        updateMtrRow
          { row with
              Received := row.Received + 1
              ReceivedPackets := row.ReceivedPackets ++ [recPacket]
              ReceivedPacket := max row.ReceivedPacket recPacket }
          lastTime
    updateLossPercent row1
  else row

/-- Embedding of the case x arm of parseMtrLine for a parsed sequence
number: skip duplicates entirely, otherwise append and recompute the loss
percent exactly when the sent list reaches length 10. -/
def caseX (row : MtrData) (sentPacket : ℤ) : MtrData :=
  if sentPacket ∈ row.SentPackets then row
  else
    let row1 :=
      { row with
          Sent := row.Sent + 1
          SentPackets := row.SentPackets ++ [sentPacket]
          SentPacket := max row.SentPacket sentPacket }
    if row1.SentPackets.length = 10 then updateLossPercent row1 else row1

/-- The switch of parseMtrLine on the type token, acting on the current row
of the hop: the h arm needs a present host token, the p arm needs two
further tokens that parse, the x arm one, and every other type token leaves
the row untouched. -/
def dispatchEvent (store : Store) (now : ℤ) (ty : String) (rest : List String)
    (hop : ℤ) (m : MtrMap) (row : MtrData) : MtrData :=
  if ty == "h" then
    match rest.head? with
    | some host => caseH store now m hop row host
    | none => row
  else if ty == "p" then
    match rest with
    | a :: b :: _ =>
        match parseFloatJS a, parseIntJS b with
        | some t, some seq => caseP row t seq
        | _, _ => row
    | _ => row
  else if ty == "x" then
    match rest.head? with
    | some a =>
        match parseIntJS a with
        | some seq => caseX row seq
        | none => row
    | none => row
  else row

/-- Processing of one tokenized line whose hop index already parsed as a
non-negative integer: fetch or create the row, run the arm selected by the
type token, and set the hop binding. -/
def applyEvent (store : Store) (now : ℤ) (ty : String) (rest : List String)
    (hop : ℤ) (m : MtrMap) : MtrMap :=
  mapSet m hop
    (dispatchEvent store now ty rest hop m
      ((mapGet m hop).getD (createDefaultMtrRow hop)))

/-- Processing of the token list of one line: the first token is the type,
the second must parse as a non-negative hop index, otherwise the line is
dropped. -/
def processTokens (store : Store) (now : ℤ) (toks : List String) (m : MtrMap) :
    MtrMap :=
  match toks with
  | [] => m
  | ty :: parts =>
      match parts.head? with
      | none => m
      | some p0 =>
          match parseIntJS p0 with
          | none => m
          | some hop => if hop < 0 then m else applyEvent store now ty parts.tail hop m

/-- Embedding of parseMtrLine: split the raw text on newlines, keep lines
with a non-whitespace character, and fold each tokenized line into the map
copied from prev. -/
def parseMtrLine (store : Store) (now : ℤ) (line : String) (prev : MtrMap) :
    MtrMap :=
  let lines := (splitOnChar (· == '\n') line.data).filter
    (fun l => ¬ l.all (·.isWhitespace))
  lines.foldl (fun m l => processTokens store now (tokenize l) m) prev

/-- A whole-session run: a sequence of raw text deliveries applied in order
to the empty hop map of a new session. -/
def runSession (store : Store) (now : ℤ) (lines : List String) : MtrMap :=
  lines.foldl (fun m l => parseMtrLine store now l m) []

namespace SpeedTestClient

/-- Embedding of MAX_RETRIES = 3 of SpeedTest.tsx. -/
def MAX_RETRIES : ℕ := 3

/-- Outcome of one chunk transfer with its retry loop: whether it finally
succeeded, how many fetch attempts were made, and the backoff delays in
milliseconds that were awaited before each re-attempt. -/
structure ChunkOutcome where
  ok : Bool
  attempts : ℕ
  delays : List ℕ
  deriving DecidableEq

/-- Recursion core of the retry loop shared by downloadChunk and
uploadChunk: succeeds gives the outcome of the fetch at a retry count (false
covers both a network error and a non-success status, which are raised and
caught alike), aborted is the shared cancellation signal as observed in the
catch block after that attempt.  The source recursion is bounded by the
guard retryCount < MAX_RETRIES; the first argument carries that bound
explicitly so the recursion is structural, and it is consumed exactly when
the guard fails, so the zero case returns the same propagated failure as
the guard-false branch. -/
def chunkGo (succeeds aborted : ℕ → Bool) : ℕ → ℕ → ChunkOutcome
  | 0, retryCount =>
      if succeeds retryCount then { ok := true, attempts := 1, delays := [] }
      else { ok := false, attempts := 1, delays := [] }
  | budget + 1, retryCount =>
      if succeeds retryCount then { ok := true, attempts := 1, delays := [] }
      else if retryCount < MAX_RETRIES ∧ aborted retryCount = false then
        let rest := chunkGo succeeds aborted budget (retryCount + 1)
        { ok := rest.ok
          attempts := rest.attempts + 1
          delays := 2 ^ retryCount * 1000 :: rest.delays }
      else { ok := false, attempts := 1, delays := [] }

/-- Embedding of the retry control flow of downloadChunk and uploadChunk
called at a retry count: try the fetch; on failure, when the retry guard
holds and the cancellation signal is not raised, await two to the power
retryCount seconds and recurse with retryCount + 1, otherwise propagate the
failure. -/
def chunkAttempt (succeeds aborted : ℕ → Bool) (retryCount : ℕ) : ChunkOutcome :=
  chunkGo succeeds aborted (MAX_RETRIES + 1 - retryCount) retryCount

end SpeedTestClient

/-- Extraction of the numeric chunk id from the opaque identity token, shared
by both endpoint variants: parseInt of the piece after the first dash, with
the string 0 substituted when that piece is absent or empty. -/
def extractIdNumber (id : String) : Option ℤ :=
  let piece := ((splitOnChar (· == '-') id.data).map String.mk).getD 1 ""
  parseIntJS (if piece = "" then "0" else piece)

/-- Little-endian byte serialization of one 32-bit word, the effect of
DataView.setUint32 with littleEndian true. -/
def wordBytes (w : ℕ) : List ℕ :=
  [w % 256, w / 256 % 256, w / 65536 % 256, w / 16777216 % 256]

/-- Low 16 bits of a JavaScript number under ToInt32, the value of
x & 0xffff. -/
def mask16 (x : ℤ) : ℕ := (x.emod 65536).toNat

/-- Low 8 bits, the value of x & 0xff. -/
def mask8 (x : ℤ) : ℕ := (x.emod 256).toNat

namespace SpeedtestPattern

/-- Embedding of CHUNK_SIZE = 4 * 1024 * 1024 of the pattern endpoint. -/
def CHUNK_SIZE : ℕ := 4 * 1024 * 1024

/-- Embedding of createChunk of the pattern (uncached) endpoint variant:
reject a chunk size that is zero (the only non-positive natural) or not a
multiple of 4, otherwise emit for every word offset i the little-endian
word basePattern | (i & 0xffff) where basePattern = (id & 0xffff) << 16.
The 16-bit shifted base and the 16-bit offset occupy disjoint bit ranges,
and the Uint32Array store keeps the value modulo two to the 32, so the word
is their OR as a natural number below two to the 32. -/
def createChunk (idNumber : ℤ) (chunkSize : ℕ) : Option (List ℕ) :=
  if chunkSize = 0 ∨ chunkSize % 4 ≠ 0 then none
  else
    some ((List.range (chunkSize / 4)).flatMap (fun w =>
      wordBytes (mask16 idNumber * 65536 ||| (4 * w) % 65536)))

/-- Result of the GET handler: the full response body or a thrown error
message. -/
inductive GetResult where
  | ok (body : List ℕ)
  | err (error : String)
  deriving DecidableEq

/-- Embedding of GET of the pattern endpoint variant: reject a missing id,
extract the numeric id (rejecting NaN), and serve the created chunk. -/
def GET (id : String) : GetResult :=
  if id = "" then .err "ID is missing in request parameters"
  else
    match extractIdNumber id with
    | none => .err ("Invalid ID number: " ++ id)
    | some idNumber =>
        match createChunk idNumber CHUNK_SIZE with
        | none => .err "Chunk size must be a positive multiple of 4"
        | some chunk => .ok chunk

end SpeedtestPattern

namespace SpeedtestCached

/-- Embedding of CHUNK_SIZE = 4 * 1024 * 1024 of the cached endpoint. -/
def CHUNK_SIZE : ℕ := 4 * 1024 * 1024

/-- Embedding of MAX_CHUNK_CACHE_SIZE = 32. -/
def MAX_CHUNK_CACHE_SIZE : ℕ := 32

/-- The module-level chunk cache, a Map from cache slot to generated bytes. -/
abbrev Cache := List (ℤ × List ℕ)

/-- Raw pattern fill of the cached variant: for every word offset i the
word is pattern + (i & 0xffff) with pattern = (id & 0xffff) | ((id & 0xff)
<< 16); the sum stays below two to the 32 so the stored word is exact. -/
def patternFill (idNumber : ℤ) (chunkSize : ℕ) : List ℕ :=
  (List.range (chunkSize / 4)).flatMap (fun w =>
    wordBytes ((mask16 idNumber ||| mask8 idNumber * 65536) + (4 * w) % 65536))

/-- Embedding of createChunk of the cached endpoint variant: serve the slot
id mod MAX_CHUNK_CACHE_SIZE from the cache when present (ignoring a
differing id, the documented staleness trade-off), otherwise generate the
pattern and cache it while the cache is below capacity.  JavaScript uses
the truncated remainder, Int.tmod here. -/
def createChunk (cache : Cache) (idNumber : ℤ) (chunkSize : ℕ) :
    List ℕ × Cache :=
  let cacheKey := idNumber.tmod (MAX_CHUNK_CACHE_SIZE : ℤ)
  match mapGet cache cacheKey with
  | some chunk => (chunk, cache)
  | none =>
      let result := patternFill idNumber chunkSize
      let cache1 :=
        if cache.length < MAX_CHUNK_CACHE_SIZE then mapSet cache cacheKey result
        else cache
      (result, cache1)

/-- Module state of the cached route: the in-flight request id set and the
chunk cache. -/
structure ServerState where
  active : Finset String
  cache : Cache

/-- Response of the cached GET: a streamed body or an error object with its
HTTP status. -/
inductive GetResult where
  | ok (body : List ℕ)
  | err (error : String) (status : ℕ)

/-- Embedding of GET of the cached endpoint variant.  An empty or in-flight
id throws before the id is added, the catch path answers status 400, and
the finally block always deletes the id, in both paths.  For an id whose
numeric piece does not parse the JavaScript NaN key behaves like a fresh
uncached slot with a zero pattern (ToInt32 of NaN is 0); the modelled ids
of the claims all parse, and the parse fallback 0 is used here. -/
def GET (st : ServerState) (id : String) : GetResult × ServerState :=
  if id = "" ∨ id ∈ st.active then
    (.err "Invalid or duplicate request" 400,
      { st with active := st.active.erase id })
  else
    let idNumber := (extractIdNumber id).getD 0
    let (chunk, cache1) := createChunk st.cache idNumber CHUNK_SIZE
    (.ok chunk, { active := (insert id st.active).erase id, cache := cache1 })

/-- One POST request as the handler observes it: whether a body is present,
the two headers (none models an absent header), and the byte counts of the
successive reads the body stream delivers. -/
structure PostRequest where
  hasBody : Bool
  contentLength : Option String
  chunkId : Option String
  bodyChunks : List ℕ

/-- Response of the POST handler: the success JSON carrying the received
byte count and the elapsed duration, or an error object with its status. -/
inductive PostResult where
  | ok (bytesReceived : ℕ) (duration : ℚ)
  | err (error : String) (status : ℕ)
  deriving DecidableEq

/-- Comparison size > bound under JavaScript NaN semantics: false when the
declared size did not parse. -/
def sizeExceeds (size : Option ℤ) (bound : ℕ) : Bool :=
  match size with
  | some v => decide ((bound : ℤ) < v)
  | none => false

/-- Comparison bytesRead > size under JavaScript NaN semantics. -/
def readExceeds (bytesRead : ℕ) (size : Option ℤ) : Bool :=
  match size with
  | some v => decide (v < (bytesRead : ℤ))
  | none => false

/-- The body drain loop of POST: accumulate the byte count of each read and
throw the size mismatch as soon as the running count exceeds the declared
size; the timeout abort signal (which would end the loop with a success
response carrying a partial count) is never raised within the modelled
request handling. -/
def drainBody (size : Option ℤ) (bytesRead : ℕ) : List ℕ → Option ℕ
  | [] => some bytesRead
  | c :: rest =>
      if readExceeds (bytesRead + c) size then none
      else drainBody size (bytesRead + c) rest

/-- Embedding of POST of the cached endpoint variant; duration is the
ambient clock reading that the handler echoes in the success JSON. -/
def POST (duration : ℚ) (req : PostRequest) : PostResult :=
  if req.hasBody = false then .err "Request body is missing" 400
  else
    let cl := req.contentLength.getD ""
    let cid := req.chunkId.getD ""
    if cl = "" ∨ cid = "" then .err "Missing required headers" 400
    else
      let size := parseIntJS cl
      if sizeExceeds size (CHUNK_SIZE * 2) then .err "Request too large" 400
      else
        match drainBody size 0 req.bodyChunks with
        | none => .err "Upload size mismatch" 400
        | some bytesRead => .ok bytesRead duration

end SpeedtestCached

theorem mapGet_mapSet {α : Type} (m : List (ℤ × α)) (k : ℤ) (v : α) (k' : ℤ) :
    mapGet (mapSet m k v) k' = if k = k' then some v else mapGet m k' := by
  induction m with
  | nil => simp [mapGet, mapSet]
  | cons hd tl ih =>
      obtain ⟨hk, hv⟩ := hd
      by_cases h1 : hk = k
      · subst h1
        by_cases h2 : hk = k'
        · subst h2
          simp [mapGet, mapSet]
        · simp [mapGet, mapSet, h2]
      · by_cases h2 : hk = k'
        · subst h2
          have hkk : ¬ k = hk := fun h => h1 h.symm
          simp [mapGet, mapSet, h1, hkk]
        · simp [mapGet, mapSet, h1, h2, ih]

theorem updateLossPercent_SentPackets (r : MtrData) :
    (updateLossPercent r).SentPackets = r.SentPackets := by
  unfold updateLossPercent
  split <;> rfl

theorem updateLossPercent_ReceivedPackets (r : MtrData) :
    (updateLossPercent r).ReceivedPackets = r.ReceivedPackets := by
  unfold updateLossPercent
  split <;> rfl

theorem updateLossPercent_Pings (r : MtrData) :
    (updateLossPercent r).Pings = r.Pings := by
  unfold updateLossPercent
  split <;> rfl

theorem updateLossPercent_bounded (r : MtrData) :
    0 ≤ (updateLossPercent r).LossPercent ∧ (updateLossPercent r).LossPercent ≤ 100 := by
  unfold updateLossPercent
  split
  · exact ⟨le_refl 0, by norm_num⟩
  · rename_i hlen
    constructor
    · positivity
    · have hle : ((r.SentPackets.filter (fun seq => seq ∉ r.ReceivedPackets)).length : ℚ)
          ≤ (r.SentPackets.length : ℚ) := by
        exact_mod_cast List.length_filter_le _ _
      have hpos : (0 : ℚ) < (r.SentPackets.length : ℚ) := by
        have : 0 < r.SentPackets.length := Nat.pos_of_ne_zero hlen
        exact_mod_cast this
      have h1 : ((r.SentPackets.filter (fun seq => seq ∉ r.ReceivedPackets)).length : ℚ)
          / (r.SentPackets.length : ℚ) ≤ 1 := (div_le_one hpos).mpr hle
      calc ((r.SentPackets.filter (fun seq => seq ∉ r.ReceivedPackets)).length : ℚ)
            / (r.SentPackets.length : ℚ) * 100 ≤ 1 * 100 := by
              exact mul_le_mul_of_nonneg_right h1 (by norm_num)
        _ = 100 := by norm_num

theorem updateLossPercent_zero_of_empty (r : MtrData) (h : r.SentPackets = []) :
    (updateLossPercent r).LossPercent = 0 := by
  unfold updateLossPercent
  simp [h]

theorem updateMtrRow_LossPercent (r : MtrData) (t : ℚ) :
    (updateMtrRow r t).LossPercent = r.LossPercent := by
  unfold updateMtrRow
  split <;> rfl

theorem updateMtrRow_SentPackets (r : MtrData) (t : ℚ) :
    (updateMtrRow r t).SentPackets = r.SentPackets := by
  unfold updateMtrRow
  split <;> rfl

theorem updateMtrRow_ReceivedPackets (r : MtrData) (t : ℚ) :
    (updateMtrRow r t).ReceivedPackets = r.ReceivedPackets := by
  unfold updateMtrRow
  split <;> rfl

theorem updateMtrRow_Pings_pos (r : MtrData) (t : ℚ) (h : 0 < t) :
    (updateMtrRow r t).Pings = pushPing r.Pings t := by
  unfold updateMtrRow
  rw [if_pos h]

theorem caseH_LossPercent (store : Store) (now : ℤ) (m : MtrMap) (hop : ℤ)
    (r : MtrData) (host : String) :
    (caseH store now m hop r host).LossPercent = r.LossPercent := by
  unfold caseH
  split
  · split
    · split <;> rfl
    · rfl
  · rfl

theorem caseH_SentPackets (store : Store) (now : ℤ) (m : MtrMap) (hop : ℤ)
    (r : MtrData) (host : String) :
    (caseH store now m hop r host).SentPackets = r.SentPackets := by
  unfold caseH
  split
  · split
    · split <;> rfl
    · rfl
  · rfl

theorem caseH_isHidden (store : Store) (now : ℤ) (m : MtrMap) (hop : ℤ)
    (r : MtrData) (host : String) :
    (caseH store now m hop r host).isHidden = isHiddenAt m hop host := by
  unfold caseH
  split
  · split
    · split <;> rfl
    · rfl
  · rfl

theorem caseP_loss_bounds (r : MtrData) (t : ℚ) (s : ℤ)
    (hr : (0 ≤ r.LossPercent ∧ r.LossPercent ≤ 100) ∧
      (r.SentPackets = [] → r.LossPercent = 0)) :
    (0 ≤ (caseP r t s).LossPercent ∧ (caseP r t s).LossPercent ≤ 100) ∧
      ((caseP r t s).SentPackets = [] → (caseP r t s).LossPercent = 0) := by
  unfold caseP
  split
  · refine ⟨updateLossPercent_bounded _, fun hemp => ?_⟩
    rw [updateLossPercent_SentPackets] at hemp
    apply updateLossPercent_zero_of_empty
    split at hemp <;> simp_all [updateMtrRow_SentPackets]
  · exact hr

theorem caseX_loss_bounds (r : MtrData) (s : ℤ)
    (hr : (0 ≤ r.LossPercent ∧ r.LossPercent ≤ 100) ∧
      (r.SentPackets = [] → r.LossPercent = 0)) :
    (0 ≤ (caseX r s).LossPercent ∧ (caseX r s).LossPercent ≤ 100) ∧
      ((caseX r s).SentPackets = [] → (caseX r s).LossPercent = 0) := by
  unfold caseX
  split
  · exact hr
  · dsimp only
    split
    · refine ⟨updateLossPercent_bounded _, fun hemp => ?_⟩
      rw [updateLossPercent_SentPackets] at hemp
      exact updateLossPercent_zero_of_empty _ hemp
    · refine ⟨hr.1, fun hemp => ?_⟩
      simp at hemp

theorem caseH_loss_bounds (store : Store) (now : ℤ) (m : MtrMap) (hop : ℤ)
    (r : MtrData) (host : String)
    (hr : (0 ≤ r.LossPercent ∧ r.LossPercent ≤ 100) ∧
      (r.SentPackets = [] → r.LossPercent = 0)) :
    (0 ≤ (caseH store now m hop r host).LossPercent ∧
        (caseH store now m hop r host).LossPercent ≤ 100) ∧
      ((caseH store now m hop r host).SentPackets = [] →
        (caseH store now m hop r host).LossPercent = 0) := by
  rw [caseH_LossPercent, caseH_SentPackets]
  exact hr

theorem createDefaultMtrRow_loss_bounds (hop : ℤ) :
    (0 ≤ (createDefaultMtrRow hop).LossPercent ∧
        (createDefaultMtrRow hop).LossPercent ≤ 100) ∧
      ((createDefaultMtrRow hop).SentPackets = [] →
        (createDefaultMtrRow hop).LossPercent = 0) := by
  refine ⟨⟨le_refl 0, by norm_num [createDefaultMtrRow]⟩, fun _ => rfl⟩

theorem applyEvent_loss_bounds (store : Store) (now : ℤ) (ty : String)
    (rest : List String) (hop : ℤ) (m : MtrMap)
    (hm : ∀ k r, mapGet m k = some r →
      (0 ≤ r.LossPercent ∧ r.LossPercent ≤ 100) ∧
        (r.SentPackets = [] → r.LossPercent = 0)) :
    ∀ k r, mapGet (applyEvent store now ty rest hop m) k = some r →
      (0 ≤ r.LossPercent ∧ r.LossPercent ≤ 100) ∧
        (r.SentPackets = [] → r.LossPercent = 0) := by
  intro k r hk
  unfold applyEvent at hk
  rw [mapGet_mapSet] at hk
  have hrow : (0 ≤ ((mapGet m hop).getD (createDefaultMtrRow hop)).LossPercent ∧
      ((mapGet m hop).getD (createDefaultMtrRow hop)).LossPercent ≤ 100) ∧
      (((mapGet m hop).getD (createDefaultMtrRow hop)).SentPackets = [] →
        ((mapGet m hop).getD (createDefaultMtrRow hop)).LossPercent = 0) := by
    cases hg : mapGet m hop with
    | none => simpa [hg] using createDefaultMtrRow_loss_bounds hop
    | some r0 => simpa [hg] using hm hop r0 hg
  split at hk
  · rename_i heq
    injection hk with hk
    subst hk
    unfold dispatchEvent
    split
    · split
      · exact caseH_loss_bounds _ _ _ _ _ _ hrow
      · exact hrow
    · split
      · split
        · split
          · exact caseP_loss_bounds _ _ _ hrow
          · exact hrow
        · exact hrow
      · split
        · split
          · split
            · exact caseX_loss_bounds _ _ hrow
            · exact hrow
          · exact hrow
        · exact hrow
  · exact hm k r hk

theorem processTokens_loss_bounds (store : Store) (now : ℤ) (toks : List String)
    (m : MtrMap)
    (hm : ∀ k r, mapGet m k = some r →
      (0 ≤ r.LossPercent ∧ r.LossPercent ≤ 100) ∧
        (r.SentPackets = [] → r.LossPercent = 0)) :
    ∀ k r, mapGet (processTokens store now toks m) k = some r →
      (0 ≤ r.LossPercent ∧ r.LossPercent ≤ 100) ∧
        (r.SentPackets = [] → r.LossPercent = 0) := by
  unfold processTokens
  split
  · exact hm
  · split
    · exact hm
    · split
      · exact hm
      · split
        · exact hm
        · exact applyEvent_loss_bounds _ _ _ _ _ _ hm

theorem parseMtrLine_loss_bounds (store : Store) (now : ℤ) (line : String)
    (m : MtrMap)
    (hm : ∀ k r, mapGet m k = some r →
      (0 ≤ r.LossPercent ∧ r.LossPercent ≤ 100) ∧
        (r.SentPackets = [] → r.LossPercent = 0)) :
    ∀ k r, mapGet (parseMtrLine store now line m) k = some r →
      (0 ≤ r.LossPercent ∧ r.LossPercent ≤ 100) ∧
        (r.SentPackets = [] → r.LossPercent = 0) := by
  unfold parseMtrLine
  generalize (splitOnChar (· == '\n') line.data).filter
    (fun l => ¬ l.all (·.isWhitespace)) = ls
  induction ls generalizing m with
  | nil => exact hm
  | cons hd tl ih => exact ih _ (processTokens_loss_bounds _ _ _ _ hm)

theorem runSession_loss_bounds (store : Store) (now : ℤ) (lines : List String) :
    ∀ k r, mapGet (runSession store now lines) k = some r →
      (0 ≤ r.LossPercent ∧ r.LossPercent ≤ 100) ∧
        (r.SentPackets = [] → r.LossPercent = 0) := by
  unfold runSession
  have base : ∀ k r, mapGet ([] : MtrMap) k = some r →
      (0 ≤ r.LossPercent ∧ r.LossPercent ≤ 100) ∧
        (r.SentPackets = [] → r.LossPercent = 0) := by
    intro k r hk
    simp [mapGet] at hk
  generalize ([] : MtrMap) = m at base ⊢
  induction lines generalizing m with
  | nil => exact base
  | cons hd tl ih => exact ih _ (parseMtrLine_loss_bounds _ _ _ _ base)

theorem pushPing_length_le (w : List ℚ) (t : ℚ) (h : w.length ≤ 100) :
    (pushPing w t).length ≤ 100 := by
  unfold pushPing MAX_PACKETS
  dsimp only
  split
  · rename_i hgt
    simp only [List.length_tail, List.length_append, List.length_singleton]
    omega
  · rename_i hle
    simp only [List.length_append, List.length_singleton] at *
    omega

theorem foldl_pushPing (ts : List ℚ) : ∀ w : List ℚ, w.length ≤ 100 →
    List.foldl pushPing w ts = (w ++ ts).drop ((w ++ ts).length - 100) := by
  induction ts with
  | nil =>
      intro w hw
      simp only [List.foldl_nil, List.append_nil]
      rw [Nat.sub_eq_zero_of_le hw, List.drop_zero]
  | cons t ts ih =>
      intro w hw
      rw [List.foldl_cons, ih (pushPing w t) (pushPing_length_le w t hw)]
      by_cases hlen : w.length < 100
      · have hp : pushPing w t = w ++ [t] := by
          unfold pushPing MAX_PACKETS
          dsimp only
          rw [if_neg (by simp only [List.length_append, List.length_singleton]; omega)]
        rw [hp]
        simp only [List.append_assoc, List.singleton_append]
      · have hw100 : w.length = 100 := by omega
        have hwne : w ≠ [] := by
          intro hcon
          rw [hcon] at hw100
          simp at hw100
        have hp : pushPing w t = (w ++ [t]).tail := by
          unfold pushPing MAX_PACKETS
          dsimp only
          rw [if_pos (by simp only [List.length_append, List.length_singleton]; omega)]
        rw [hp]
        have htail : (w ++ [t]).tail ++ ts = ((w ++ t :: ts)).tail := by
          cases w with
          | nil => exact absurd rfl hwne
          | cons hd tl => simp
        rw [htail, ← List.drop_one, List.drop_drop]
        congr 1
        simp only [List.length_drop, List.length_append, List.length_singleton,
          List.length_cons]
        omega

theorem caseP_fresh_Pings (r : MtrData) (t : ℚ) (s : ℤ) (ht : 0 < t)
    (hs : s ∉ r.ReceivedPackets) :
    (caseP r t s).Pings = pushPing r.Pings t ∧
      (caseP r t s).ReceivedPackets = r.ReceivedPackets ++ [s] := by
  unfold caseP
  rw [if_pos ht]
  dsimp only
  rw [if_neg hs]
  constructor
  · rw [updateLossPercent_Pings, updateMtrRow_Pings_pos _ _ ht]
  · rw [updateLossPercent_ReceivedPackets, updateMtrRow_ReceivedPackets]

theorem foldl_caseP_Pings (ps : List (ℚ × ℤ)) : ∀ r : MtrData,
    (∀ q ∈ ps, 0 < q.1) → (ps.map Prod.snd).Nodup →
    (∀ q ∈ ps, q.2 ∉ r.ReceivedPackets) →
    (ps.foldl (fun row q => caseP row q.1 q.2) r).Pings =
      List.foldl pushPing r.Pings (ps.map Prod.fst) := by
  induction ps with
  | nil => intro r _ _ _; rfl
  | cons q ps ih =>
      intro r hpos hnodup hfresh
      have hq : 0 < q.1 := hpos q (List.mem_cons_self q ps)
      have hqr : q.2 ∉ r.ReceivedPackets := hfresh q (List.mem_cons_self q ps)
      obtain ⟨hP, hR⟩ := caseP_fresh_Pings r q.1 q.2 hq hqr
      rw [List.foldl_cons, List.map_cons, List.foldl_cons, ← hP]
      apply ih
      · intro p hp
        exact hpos p (List.mem_cons_of_mem q hp)
      · simp only [List.map_cons, List.nodup_cons] at hnodup
        exact hnodup.2
      · intro p hp
        rw [hR]
        simp only [List.mem_append, List.mem_singleton]
        rintro (hmem | hps)
        · exact hfresh p (List.mem_cons_of_mem q hp) hmem
        · simp only [List.map_cons, List.nodup_cons] at hnodup
          exact hnodup.1 (hps ▸ List.mem_map_of_mem Prod.snd hp)

/-- C1 (amended): for every hop record reachable by any sequence of raw
probe deliveries in a session, the loss percent lies within [0,100] and is
exactly 0 while the sent list is empty; whenever updateLossPercent
recomputes it (which the code does on every valid received probe and when
the sent count reaches 10), the stored value is the share of sent sequence
numbers absent from the received list, times 100 — which agrees with the
claimed (sent - received)/sent * 100 only when every received sequence
number was also recorded as sent. -/
theorem lossPercent_bounds_and_recompute_formula :
    (∀ (store : Store) (now : ℤ) (lines : List String) (k : ℤ) (r : MtrData),
        mapGet (runSession store now lines) k = some r →
          (0 ≤ r.LossPercent ∧ r.LossPercent ≤ 100) ∧
            (r.SentPackets = [] → r.LossPercent = 0)) ∧
    (∀ r : MtrData, (updateLossPercent r).LossPercent =
        if r.SentPackets.length = 0 then 0
        else ((r.SentPackets.filter (fun seq => seq ∉ r.ReceivedPackets)).length : ℚ)
          / (r.SentPackets.length : ℚ) * 100) := by
  constructor
  · intro store now lines k r hk
    exact runSession_loss_bounds store now lines k r hk
  · intro r
    unfold updateLossPercent
    split
    · rfl
    · rfl

/-- Witness for C1: the session that received the single raw line x 0 1 has
a hop 0 record, and the theorem yields its loss bounds. -/
theorem lossPercent_bounds_witness :
    ∃ r : MtrData, mapGet (runSession emptyStore 0 ["x 0 1"]) 0 = some r ∧
      (0 ≤ r.LossPercent ∧ r.LossPercent ≤ 100) ∧
      (r.SentPackets = [] → r.LossPercent = 0) := by
  cases hk : mapGet (runSession emptyStore 0 ["x 0 1"]) 0 with
  | none =>
      have hsome : (mapGet (runSession emptyStore 0 ["x 0 1"]) 0).isSome := by
        with_unfolding_all decide
      rw [hk] at hsome
      simp at hsome
  | some r =>
      exact ⟨r, rfl,
        lossPercent_bounds_and_recompute_formula.1 emptyStore 0 ["x 0 1"] 0 r hk⟩

/-- Counterexample for C1 as stated: after the raw lines x 0 1 and
p 0 12.5 2 the hop 0 record has LossPercent 100 (sequence 1 was sent and
never received), while the claimed formula (sent - received)/sent * 100
evaluates to (1 - 1)/1 * 100 = 0 because the received list holds the
foreign sequence 2. -/
theorem lossPercent_claim_counterexample :
    (mapGet (parseMtrLine emptyStore 0 "x 0 1\np 0 12.5 2" []) 0).map
        MtrData.LossPercent = some 100 ∧
      (mapGet (parseMtrLine emptyStore 0 "x 0 1\np 0 12.5 2" []) 0).map
        (fun r => ((r.SentPackets.length : ℚ) - (r.ReceivedPackets.length : ℚ))
          / (r.SentPackets.length : ℚ) * 100) = some 0 := by
  constructor
  · with_unfolding_all decide
  · with_unfolding_all decide

/-- C2: folding any list of received-probe events with positive times and
pairwise distinct sequence numbers into a fresh hop record leaves exactly
the most recent 100 round-trip samples, in arrival order (the list is the
suffix of the sample sequence obtained by dropping all but the last 100),
and hence the window length is min 100 (number of accepted samples). -/
theorem latencyWindow_fifo_min (hop : ℤ) (ps : List (ℚ × ℤ))
    (hpos : ∀ q ∈ ps, 0 < q.1) (hnodup : (ps.map Prod.snd).Nodup) :
    (ps.foldl (fun row q => caseP row q.1 q.2) (createDefaultMtrRow hop)).Pings =
        (ps.map Prod.fst).drop (ps.length - 100) ∧
      (ps.foldl (fun row q => caseP row q.1 q.2)
          (createDefaultMtrRow hop)).Pings.length = min 100 ps.length := by
  have h1 : (ps.foldl (fun row q => caseP row q.1 q.2)
      (createDefaultMtrRow hop)).Pings
      = List.foldl pushPing (createDefaultMtrRow hop).Pings (ps.map Prod.fst) := by
    apply foldl_caseP_Pings ps (createDefaultMtrRow hop) hpos hnodup
    intro q hq
    simp [createDefaultMtrRow]
  have h2 := foldl_pushPing (ps.map Prod.fst) (createDefaultMtrRow hop).Pings
    (by simp [createDefaultMtrRow])
  rw [h1, h2]
  have hpings : (createDefaultMtrRow hop).Pings = [] := rfl
  rw [hpings]
  constructor
  · simp only [List.nil_append, List.length_map]
  · simp only [List.nil_append, List.length_drop, List.length_map]
    omega

/-- Witness for C2: a single accepted sample of 12.5 ms with sequence 1. -/
theorem latencyWindow_fifo_min_witness :
    (([((25 : ℚ)/2, (1 : ℤ))].foldl (fun row q => caseP row q.1 q.2)
        (createDefaultMtrRow 0)).Pings =
      ([((25 : ℚ)/2, (1 : ℤ))].map Prod.fst).drop
        ([((25 : ℚ)/2, (1 : ℤ))].length - 100) ∧
      (([((25 : ℚ)/2, (1 : ℤ))].foldl (fun row q => caseP row q.1 q.2)
          (createDefaultMtrRow 0)).Pings.length =
        min 100 [((25 : ℚ)/2, (1 : ℤ))].length)) := by
  apply latencyWindow_fifo_min
  · intro q hq
    simp only [List.mem_singleton] at hq
    subst hq
    norm_num
  · simp

/-- C3: a sent-probe event whose sequence number is already in the sent
list leaves the row entirely unchanged, and a received-probe event whose
sequence number is already in the received list leaves the sent list, the
received list and the latency window length unchanged (it only recomputes
the loss percent). -/
theorem duplicate_seq_not_double_counted :
    (∀ (r : MtrData) (s : ℤ), s ∈ r.SentPackets → caseX r s = r) ∧
    (∀ (r : MtrData) (t : ℚ) (s : ℤ), s ∈ r.ReceivedPackets →
      (caseP r t s).SentPackets = r.SentPackets ∧
      (caseP r t s).ReceivedPackets = r.ReceivedPackets ∧
      (caseP r t s).Pings.length = r.Pings.length) := by
  constructor
  · intro r s hs
    unfold caseX
    rw [if_pos hs]
  · intro r t s hs
    by_cases ht : 0 < t
    · simp [caseP, ht, hs, updateLossPercent_SentPackets,
        updateLossPercent_ReceivedPackets, updateLossPercent_Pings]
    · simp [caseP, ht]

/-- Witness for C3: replaying the sent probe 5 on the row that already
absorbed it changes nothing. -/
theorem duplicate_seq_not_double_counted_witness :
    caseX (caseX (createDefaultMtrRow 0) 5) 5 = caseX (createDefaultMtrRow 0) 5 := by
  apply duplicate_seq_not_double_counted.1
  decide

/-- C4: at host-discovery time the hidden flag of the updated row is true
exactly when the map currently binds hop minus one to a record whose host
equals the newly discovered host (so false whenever hop minus one does not
exist), and processing any event for a different hop leaves the record of
this hop — hence its hidden flag — untouched, so later host changes of the
previous hop are never applied retroactively. -/
theorem isHidden_discovery_semantics :
    (∀ (store : Store) (now : ℤ) (m : MtrMap) (hop : ℤ) (r : MtrData)
        (host : String),
        (caseH store now m hop r host).isHidden = true ↔
          ∃ prevRow, mapGet m (hop - 1) = some prevRow ∧ prevRow.Host = host) ∧
    (∀ (store : Store) (now : ℤ) (ty : String) (rest : List String) (hop : ℤ)
        (m : MtrMap) (k : ℤ), k ≠ hop →
        mapGet (applyEvent store now ty rest hop m) k = mapGet m k) := by
  constructor
  · intro store now m hop r host
    rw [caseH_isHidden]
    unfold isHiddenAt
    cases hg : mapGet m (hop - 1) with
    | none => simp
    | some p =>
        simp only [beq_iff_eq, Option.some.injEq]
        constructor
        · intro h
          exact ⟨p, rfl, h.symm⟩
        · rintro ⟨p2, hp2, hh⟩
          rw [← hp2] at hh
          exact hh.symm
  · intro store now ty rest hop m k hk
    unfold applyEvent
    rw [mapGet_mapSet]
    rw [if_neg (fun h => hk h.symm)]

/-- Witness for C4: an h event for hop 1 does not touch the (absent) record
of hop 0. -/
theorem isHidden_discovery_semantics_witness :
    mapGet (applyEvent emptyStore 0 "h" ["9.9.9.9"] 1 []) 0 =
      mapGet ([] : MtrMap) 0 := by
  apply isHidden_discovery_semantics.2
  decide

/-- Counterexample for C5 as stated: after the four scenario lines the hop 0
loss percent is 50, not 0 — updateLossPercent runs on every valid received
probe (the batch threshold of 10 only gates sent-probe recomputation), and
at the p event sequence 2 was sent but not received. -/
theorem scenarioA_loss_counterexample :
    (mapGet (parseMtrLine emptyStore 0
        "x 0 1\nx 0 2\np 0 12.5 1\nh 0 10.0.0.1" []) 0).map
        MtrData.LossPercent = some 50 ∧
      (mapGet (parseMtrLine emptyStore 0
          "x 0 1\nx 0 2\np 0 12.5 1\nh 0 10.0.0.1" []) 0).map
          MtrData.LossPercent ≠ some 0 := by
  constructor
  · with_unfolding_all decide
  · with_unfolding_all decide

/-- C5 (amended): applying the raw lines x 0 1, x 0 2, p 0 12.5 1,
h 0 10.0.0.1 in order to an empty session with an empty localStorage yields
hop 0 with sent sequence numbers [1, 2], received sequence numbers [1],
lossPercent 50 (recomputed by the received-probe event), last 0.0125
seconds (the source stores milliseconds divided by 1000), host 10.0.0.1,
and asn still at the N/A sentinel. -/
theorem scenarioA_evaluation :
    (mapGet (parseMtrLine emptyStore 0
        "x 0 1\nx 0 2\np 0 12.5 1\nh 0 10.0.0.1" []) 0).map
        MtrData.SentPackets = some [1, 2] ∧
    (mapGet (parseMtrLine emptyStore 0
        "x 0 1\nx 0 2\np 0 12.5 1\nh 0 10.0.0.1" []) 0).map
        MtrData.ReceivedPackets = some [1] ∧
    (mapGet (parseMtrLine emptyStore 0
        "x 0 1\nx 0 2\np 0 12.5 1\nh 0 10.0.0.1" []) 0).map
        MtrData.LossPercent = some 50 ∧
    (mapGet (parseMtrLine emptyStore 0
        "x 0 1\nx 0 2\np 0 12.5 1\nh 0 10.0.0.1" []) 0).map
        MtrData.Last = some (some ((1 : ℚ)/80)) ∧
    (mapGet (parseMtrLine emptyStore 0
        "x 0 1\nx 0 2\np 0 12.5 1\nh 0 10.0.0.1" []) 0).map
        MtrData.Host = some "10.0.0.1" ∧
    (mapGet (parseMtrLine emptyStore 0
        "x 0 1\nx 0 2\np 0 12.5 1\nh 0 10.0.0.1" []) 0).map
        MtrData.ASN = some "N/A" := by
  refine ⟨?_, ?_, ?_, ?_, ?_, ?_⟩ <;> with_unfolding_all decide

/-- C6: the anchored reservedIPv4Regex never matches the complete reserved
address 10.0.0.1 (it only matches dot-terminated prefix strings such as
10.0.0.), so the enrichment guard of the h arm is true for 10.0.0.1 on an
empty session and the ASN lookup is started for this reserved address,
against the claim. -/
theorem reservedRegex_enrichment_failing_input :
    reservedIPv4Regex_test "10.0.0.1" = false ∧
      shouldEnrich [] 0 "10.0.0.1" = true ∧
      reservedIPv4Regex_test "10.0.0." = true := by
  refine ⟨?_, ?_, ?_⟩ <;> decide

namespace SpeedTestClient

theorem chunkGo_attempts_le (s a : ℕ → Bool) :
    ∀ (fuel r : ℕ), r ≤ MAX_RETRIES →
      (chunkGo s a fuel r).attempts ≤ MAX_RETRIES + 1 - r := by
  intro fuel
  induction fuel with
  | zero =>
      intro r hr
      unfold chunkGo
      split
      · simp only
        omega
      · simp only
        omega
  | succ n ih =>
      intro r hr
      unfold chunkGo
      split
      · simp only
        omega
      · split
        · rename_i hguard
          have hrec := ih (r + 1) (by omega)
          simp only
          unfold MAX_RETRIES at hguard hrec ⊢
          omega
        · simp only
          omega

/-- C7: the retry loop of downloadChunk and uploadChunk.  First conjunct:
when every attempt fails and the cancellation signal is never raised, the
loop makes exactly 4 attempts (the original plus 3 retries), awaits the
backoff delays 2^0, 2^1 and 2^2 seconds (1000, 2000, 4000 milliseconds)
before the respective re-attempts, and then propagates the failure (ok is
false, aborting the phase in the scheduling loop that rethrows it).  Second
conjunct: after a failed attempt with the cancellation signal raised no
retry happens — the failure propagates immediately with no further attempt
and no delay.  Third conjunct: no chunk transfer ever makes more than
MAX_RETRIES + 1 = 4 attempts. -/
theorem retry_policy :
    chunkAttempt (fun _ => false) (fun _ => false) 0 =
      { ok := false, attempts := 4, delays := [1000, 2000, 4000] } ∧
    (∀ (s a : ℕ → Bool) (r : ℕ), s r = false → a r = true →
      chunkAttempt s a r = { ok := false, attempts := 1, delays := [] }) ∧
    (∀ s a : ℕ → Bool, (chunkAttempt s a 0).attempts ≤ MAX_RETRIES + 1) := by
  refine ⟨?_, ?_, ?_⟩
  · rfl
  · intro s a r hs ha
    unfold chunkAttempt
    cases hfuel : MAX_RETRIES + 1 - r with
    | zero =>
        unfold chunkGo
        rw [hs]
        simp
    | succ n =>
        unfold chunkGo
        rw [hs]
        simp [ha]
  · intro s a
    have h := chunkGo_attempts_le s a (MAX_RETRIES + 1 - 0) 0 (by norm_num)
    simpa using h

/-- Witness for C7: a failing attempt under a raised cancellation signal is
not retried. -/
theorem retry_policy_witness :
    chunkAttempt (fun _ => false) (fun _ => true) 0 =
      { ok := false, attempts := 1, delays := [] } :=
  retry_policy.2.1 (fun _ => false) (fun _ => true) 0 rfl rfl

end SpeedTestClient

namespace SpeedtestCached

theorem drainBody_complete (size : ℤ) :
    ∀ (chunks : List ℕ) (acc : ℕ), ((acc : ℤ) + (chunks.sum : ℤ) ≤ size) →
      drainBody (some size) acc chunks = some (acc + chunks.sum) := by
  intro chunks
  induction chunks with
  | nil =>
      intro acc h
      simp [drainBody]
  | cons c rest ih =>
      intro acc h
      have hsum : ((acc + c : ℕ) : ℤ) + (rest.sum : ℤ) ≤ size := by
        simp only [List.sum_cons] at h
        push_cast at h ⊢
        omega
      have hno : readExceeds (acc + c) (some size) = false := by
        unfold readExceeds
        simp only [decide_eq_false_iff_not, not_lt]
        have hges : (0 : ℤ) ≤ (rest.sum : ℤ) := by positivity
        omega
      show (if readExceeds (acc + c) (some size) = true then none
          else drainBody (some size) (acc + c) rest) = some (acc + (c :: rest).sum)
      rw [hno]
      simp only [Bool.false_eq_true, if_false]
      rw [ih (acc + c) hsum]
      congr 1
      simp only [List.sum_cons]
      omega

theorem drainBody_mismatch (size : ℤ) :
    ∀ (chunks : List ℕ) (acc : ℕ), ((acc : ℤ) ≤ size) →
      (size < (acc : ℤ) + (chunks.sum : ℤ)) →
      drainBody (some size) acc chunks = none := by
  intro chunks
  induction chunks with
  | nil =>
      intro acc h1 h2
      simp only [List.sum_nil, Nat.cast_zero, add_zero] at h2
      omega
  | cons c rest ih =>
      intro acc h1 h2
      show (if readExceeds (acc + c) (some size) = true then none
          else drainBody (some size) (acc + c) rest) = none
      by_cases hx : size < ((acc + c : ℕ) : ℤ)
      · have htrue : readExceeds (acc + c) (some size) = true := by
          unfold readExceeds
          simpa using hx
        rw [htrue]
        simp
      · have hfalse : readExceeds (acc + c) (some size) = false := by
          unfold readExceeds
          simpa using hx
        rw [hfalse]
        simp only [Bool.false_eq_true, if_false]
        apply ih (acc + c) (by push_cast; omega)
        simp only [List.sum_cons] at h2
        push_cast at h2 ⊢
        omega

end SpeedtestCached

namespace SpeedtestCached

/-- C8: the chunk-upload POST handler.  Conjunct 1: an absent (or empty)
Content-Length or chunk-id header is rejected with the client error
Missing required headers, status 400.  Conjunct 2: a declared length above
twice the configured chunk size is rejected with Request too large, 400.
Conjunct 3: with a well-formed declared size within the cap, as soon as the
cumulative bytes read exceed the declared size the request fails with
Upload size mismatch and success is never returned.  Conjunct 4: when the
body fits the declared size the handler answers success with the exact
count of bytes received and the elapsed duration.  Conjunct 5 is scenario
C: Content-Length 1000 with a 2000-byte body fails with the size-mismatch
error. -/
theorem post_validation :
    (∀ (dur : ℚ) (req : PostRequest), req.hasBody = true →
      (req.contentLength.getD "" = "" ∨ req.chunkId.getD "" = "") →
      POST dur req = .err "Missing required headers" 400) ∧
    (∀ (dur : ℚ) (req : PostRequest) (v : ℤ), req.hasBody = true →
      ¬(req.contentLength.getD "" = "" ∨ req.chunkId.getD "" = "") →
      parseIntJS (req.contentLength.getD "") = some v →
      ((CHUNK_SIZE * 2 : ℕ) : ℤ) < v →
      POST dur req = .err "Request too large" 400) ∧
    (∀ (dur : ℚ) (req : PostRequest) (v : ℤ), req.hasBody = true →
      ¬(req.contentLength.getD "" = "" ∨ req.chunkId.getD "" = "") →
      parseIntJS (req.contentLength.getD "") = some v →
      v ≤ ((CHUNK_SIZE * 2 : ℕ) : ℤ) → 0 ≤ v →
      v < (req.bodyChunks.sum : ℤ) →
      POST dur req = .err "Upload size mismatch" 400) ∧
    (∀ (dur : ℚ) (req : PostRequest) (v : ℤ), req.hasBody = true →
      ¬(req.contentLength.getD "" = "" ∨ req.chunkId.getD "" = "") →
      parseIntJS (req.contentLength.getD "") = some v →
      v ≤ ((CHUNK_SIZE * 2 : ℕ) : ℤ) →
      (req.bodyChunks.sum : ℤ) ≤ v →
      POST dur req = .ok req.bodyChunks.sum dur) ∧
    (POST 0 ⟨true, some "1000", some "7", [1000, 1000]⟩ =
      .err "Upload size mismatch" 400) := by
  refine ⟨?_, ?_, ?_, ?_, ?_⟩
  · intro dur req hb hmiss
    unfold POST
    rw [if_neg (by simp [hb])]
    dsimp only
    rw [if_pos hmiss]
  · intro dur req v hb hpresent hparse hbig
    unfold POST
    rw [if_neg (by simp [hb])]
    dsimp only
    rw [if_neg hpresent]
    rw [hparse]
    rw [if_pos (by unfold sizeExceeds; simpa using hbig)]
  · intro dur req v hb hpresent hparse hsmall hv0 hover
    unfold POST
    rw [if_neg (by simp [hb])]
    dsimp only
    rw [if_neg hpresent]
    rw [hparse]
    rw [if_neg (by unfold sizeExceeds; simpa using hsmall)]
    rw [drainBody_mismatch v req.bodyChunks 0 (by simpa using hv0)
      (by simpa using hover)]
  · intro dur req v hb hpresent hparse hsmall hfits
    unfold POST
    rw [if_neg (by simp [hb])]
    dsimp only
    rw [if_neg hpresent]
    rw [hparse]
    rw [if_neg (by unfold sizeExceeds; simpa using hsmall)]
    rw [drainBody_complete v req.bodyChunks 0 (by simpa using hfits)]
    simp
  · with_unfolding_all decide

/-- Witness for C8: a POST with a body but no headers is rejected with the
missing-headers client error. -/
theorem post_validation_witness :
    POST 0 ⟨true, none, none, []⟩ = .err "Missing required headers" 400 :=
  post_validation.1 0 ⟨true, none, none, []⟩ rfl (Or.inl rfl)

end SpeedtestCached

namespace SpeedtestPattern

theorem createChunk_length (id : ℤ) (sz : ℕ) (h0 : sz ≠ 0) (h4 : sz % 4 = 0) :
    (createChunk id sz).map List.length = some sz := by
  unfold createChunk
  rw [if_neg (by tauto)]
  simp only [Option.map_some', Option.some.injEq]
  rw [List.length_flatMap]
  simp only [Function.comp_def]
  have hmap : (List.range (sz / 4)).map
      (fun w => (wordBytes (mask16 id * 65536 ||| (4 * w) % 65536)).length) =
      (List.range (sz / 4)).map (fun _ => 4) := by
    apply List.map_congr_left
    intro w _
    rfl
  rw [hmap, List.map_const', List.sum_replicate, List.length_range, smul_eq_mul]
  omega

/-- C9 (scenario B): the pattern-variant GET for the chunk identity abc-5
returns a body of exactly 4194304 bytes, and the body is a deterministic
function of the extracted integer id alone — the GET for zzz-5, which
extracts the same id 5, returns the byte-for-byte identical body, and the
handler has no mutable state, so two independent calls with the same id
coincide. -/
theorem pattern_get_scenarioB :
    (∃ body, GET "abc-5" = .ok body ∧ body.length = 4194304) ∧
      GET "abc-5" = GET "zzz-5" := by
  have hid1 : extractIdNumber "abc-5" = some 5 := by decide
  have hid2 : extractIdNumber "zzz-5" = some 5 := by decide
  have hlen := createChunk_length 5 CHUNK_SIZE (by norm_num [CHUNK_SIZE])
    (by norm_num [CHUNK_SIZE])
  constructor
  · cases hc : createChunk 5 CHUNK_SIZE with
    | none =>
        rw [hc] at hlen
        simp at hlen
    | some body =>
        rw [hc] at hlen
        simp only [Option.map_some', Option.some.injEq] at hlen
        refine ⟨body, ?_, ?_⟩
        · unfold GET
          rw [if_neg (show ¬("abc-5" = "") by decide)]
          rw [hid1]
          dsimp only
          rw [hc]
        · rw [hlen]
          norm_num [CHUNK_SIZE]
  · unfold GET
    rw [if_neg (show ¬("abc-5" = "") by decide),
      if_neg (show ¬("zzz-5" = "") by decide), hid1, hid2]

end SpeedtestPattern

namespace SpeedtestCached

theorem GET_active_after (st : ServerState) (id : String) :
    ((GET st id).2).active = st.active.erase id := by
  unfold GET
  split
  · rfl
  · rcases hc : createChunk st.cache ((extractIdNumber id).getD 0) CHUNK_SIZE
      with ⟨chunk, cache1⟩
    simp only [hc]
    ext x
    simp only [Finset.mem_erase, Finset.mem_insert]
    constructor
    · rintro ⟨hne, hx | hx⟩
      · exact absurd hx hne
      · exact ⟨hne, hx⟩
    · rintro ⟨hne, hx⟩
      exact ⟨hne, Or.inr hx⟩

theorem GET_ok_of_free (st : ServerState) (id : String) (h1 : id ≠ "")
    (h2 : id ∉ st.active) : ∃ body, (GET st id).1 = .ok body := by
  unfold GET
  rw [if_neg (by tauto)]
  rcases hc : createChunk st.cache ((extractIdNumber id).getD 0) CHUNK_SIZE
    with ⟨chunk, cache1⟩
  simp only [hc]
  exact ⟨chunk, rfl⟩

/-- C10: the cached-variant GET.  Conjunct 1: an empty id, or an id equal to
that of another GET currently in flight (a member of the active set), is
answered with the 400 error Invalid or duplicate request instead of a chunk
body.  Conjunct 2: after any GET completes its id is no longer in the
active set.  Conjunct 3: hence a repeat GET with the same non-empty id,
issued against the state the first one left behind, succeeds with a chunk
body. -/
theorem cached_get_dedup :
    (∀ (st : ServerState) (id : String), id = "" ∨ id ∈ st.active →
      (GET st id).1 = .err "Invalid or duplicate request" 400) ∧
    (∀ (st : ServerState) (id : String), id ∉ ((GET st id).2).active) ∧
    (∀ (st : ServerState) (id : String), id ≠ "" →
      ∃ body, (GET ((GET st id).2) id).1 = .ok body) := by
  refine ⟨?_, ?_, ?_⟩
  · intro st id h
    unfold GET
    rw [if_pos h]
  · intro st id
    rw [GET_active_after]
    exact Finset.not_mem_erase id st.active
  · intro st id hne
    apply GET_ok_of_free _ _ hne
    rw [GET_active_after]
    exact Finset.not_mem_erase id st.active

/-- Witness for C10: a GET with the empty id on a fresh server state is
rejected with the 400 duplicate-or-invalid error. -/
theorem cached_get_dedup_witness :
    (GET ⟨∅, []⟩ "").1 = .err "Invalid or duplicate request" 400 :=
  cached_get_dedup.1 ⟨∅, []⟩ "" (Or.inl rfl)

end SpeedtestCached
